import Mathlib

/-!
Verification of the red-team anomaly-detection pipeline
(`src/feature_engineering/engineer_features.py`, `src/pipeline/detect.py`,
`src/models/lstm_detector.py`, `src/models/train.py`, and the feature
extractor modules) against its natural-language specification.

Conventions of the shallow embedding:
* pandas/numpy numeric values are modelled as `Rat`; a value that may be
  NaN or infinite is modelled by the inductive type `EVal`;
* a DataFrame column is a `List` of values, a DataFrame a list of named
  columns; row index `i` reads a column with `List.getD i`;
* Python code that can raise returns `Except String` / `Option`;
* library internals that the repository treats as black boxes (the keras
  network inside the LSTM detector, `np.sin`/`np.cos`/`np.log1p`, the
  pandas `dt` accessors) are abstracted as function-valued parameters of
  the corresponding structure.
-/

set_option autoImplicit false

namespace AnomalyDetection

/-- A pandas numeric cell: a finite number, NaN, `inf` or `-inf`. -/
inductive EVal where
  | num (q : ℚ)
  | nan
  | inf
  | neginf
deriving DecidableEq, Repr

/-- `true` iff the cell holds a finite number (neither NaN nor ±inf). -/
def EVal.isFinite : EVal → Bool
  | .num _ => true
  | _ => false

/-- `FeatureEngineer._handle_missing_features` on one numeric cell:
`fillna(0)` maps NaN to 0 and `replace([np.inf, -np.inf], 0)` maps both
infinities to 0; a finite value is kept. The result is always finite, so
it is returned directly as a rational. -/
def cleanVal : EVal → ℚ
  | .num q => q
  | _ => 0

/-- Minimum of a column (`Series.min`); 0 for the empty column. -/
def colMin : List ℚ → ℚ
  | [] => 0
  | [x] => x
  | x :: y :: t => min x (colMin (y :: t))

/-- Maximum of a column (`Series.max`); 0 for the empty column. -/
def colMax : List ℚ → ℚ
  | [] => 0
  | [x] => x
  | x :: y :: t => max x (colMax (y :: t))

/-- Min-max normalization of one numeric column, as performed both by
`FeatureEngineer._normalize_features` and by
`AnomalyDetector._ensemble_score`: when `max > min` map `x` to
`(x - min) / (max - min)`, otherwise produce the constant-0 column. -/
def minmaxNormalize (xs : List ℚ) : List ℚ :=
  if colMin xs < colMax xs then
    xs.map (fun x => (x - colMin xs) / (colMax xs - colMin xs))
  else
    xs.map (fun _ => 0)

/-- `FeatureEngineer` applied to one numeric column: `_handle_missing_features`
(NaN/±inf replaced by 0) followed by `_normalize_features` (min-max). -/
def transformColumn (col : List EVal) : List EVal :=
  (minmaxNormalize (col.map cleanVal)).map EVal.num

/-! ### The ensemble detector (`src/pipeline/detect.py`) -/

/-- A DataFrame column of numbers. -/
abbrev Column := List ℚ

/-- The `results` DataFrame built by `AnomalyDetector.detect`: named numeric
columns over a common row index `0, …, nRows - 1`. -/
structure ResultsFrame where
  nRows : ℕ
  cols : List (String × Column)

/-- The `ensemble` sub-configuration of the detection configuration. -/
structure EnsembleConfig where
  /-- `ensemble.enabled`, default `True` in `detect`. -/
  enabled : Bool
  /-- `ensemble.method`, default `voting`. -/
  method : String
  /-- `ensemble.weights`: per-model weight lookup table. -/
  weights : List (String × ℚ)

/-- `weights.get(model_name, 1.0)`: configured weight of a model, 1 if absent. -/
def weightOf (ws : List (String × ℚ)) (name : String) : ℚ :=
  (ws.lookup name).getD 1

/-- Python `str.endswith`, on the character lists underlying the strings. -/
def strEndsWith (s suffix : String) : Bool :=
  suffix.data.isSuffixOf s.data

/-- Worker for `strReplace`: deletes every occurrence of the pattern `p`
from a character list, scanning left to right.  The fuel argument (always
called with the list length, which bounds the number of steps) only makes
the recursion structural. -/
def delOcc (p : List Char) : ℕ → List Char → List Char
  | _, [] => []
  | 0, s => s
  | fuel + 1, c :: rest =>
    if p ≠ [] ∧ p.isPrefixOf (c :: rest) then delOcc p fuel ((c :: rest).drop p.length)
    else c :: delOcc p fuel rest

/-- Python `s.replace(pattern, '')`: every occurrence of the pattern is
deleted. -/
def strReplace (s pattern : String) : String :=
  ⟨delOcc pattern.data s.data.length s.data⟩

/-- The columns of `results` whose name ends with the given suffix
(`[col for col in results.columns if col.endswith(suffix)]`). -/
def colsEndingWith (res : ResultsFrame) (suffix : String) : List (String × Column) :=
  res.cols.filter (fun c => strEndsWith c.1 suffix)

/-- Row `i` of a column selection: the value of each column at index `i`. -/
def rowAt (cols : List (String × Column)) (i : ℕ) : List ℚ :=
  cols.map (fun c => c.2.getD i 0)

/-- The largest multiplicity of any entry of `xs` (how often the most
frequent vote occurs). -/
def maxVoteCount (xs : List ℚ) : ℕ :=
  (xs.map (fun v => xs.count v)).foldr max 0

/-- `DataFrame.mode(axis=1)[0]` on one row: pandas `mode` lists the values
of maximal multiplicity in ascending order and `[0]` takes the first, so
the result is the smallest value among those occurring most often.
(The default 1 is never reached: `rowMode` is only applied to rows drawn
from a non-empty set of prediction columns.) -/
def rowMode (xs : List ℚ) : ℚ :=
  (((xs.insertionSort (· ≤ ·)).filter (fun v => xs.count v = maxVoteCount xs)).headD 1)

/-- `AnomalyDetector._ensemble_predict`: majority voting (per-row mode of the
`*_prediction` columns), weighted voting (sign of the weighted average), or
— for an unrecognized method — voting again; all-ones when no prediction
column is present. -/
def ensemblePredict (cfg : EnsembleConfig) (res : ResultsFrame) : Column :=
  let predCols := colsEndingWith res "_prediction"
  if predCols.isEmpty then
    List.replicate res.nRows 1
  else if cfg.method = "weighted" then
    let totalWeight : ℚ :=
      (predCols.map (fun c => weightOf cfg.weights (strReplace c.1 "_prediction"))).sum
    (List.range res.nRows).map (fun i =>
      let weightedSum : ℚ :=
        (predCols.map (fun c =>
          c.2.getD i 0 * weightOf cfg.weights (strReplace c.1 "_prediction"))).sum
      if weightedSum / totalWeight < 0 then -1 else 1)
  else
    (List.range res.nRows).map (fun i => rowMode (rowAt predCols i))

/-- The weighted-voting combination rule exactly as the specification
words it, for one sample: given (weight, raw prediction) pairs, the
weighted sum of the raw {-1,+1} predictions divided by the total weight;
a result < 0 yields −1 (anomaly), otherwise +1 (normal).  Used to compare
`ensemblePredict` against the spec. -/
def weightedVoteRuleSpec (wps : List (ℚ × ℚ)) : ℚ :=
  if (wps.map (fun wp => wp.1 * wp.2)).sum / (wps.map (fun wp => wp.1)).sum < 0
  then -1 else 1

/-- `AnomalyDetector._ensemble_score`: each `*_score` column is min-max
normalized to [0,1] and the rows of the normalized columns are averaged;
all-zeros when no score column is present. -/
def ensembleScore (res : ResultsFrame) : Column :=
  let scoreCols := colsEndingWith res "_score"
  if scoreCols.isEmpty then
    List.replicate res.nRows 0
  else
    let normalized := scoreCols.map (fun c => minmaxNormalize c.2)
    (List.range res.nRows).map (fun i =>
      (normalized.map (fun c => c.getD i 0)).sum / (normalized.length : ℚ))

/-- How the scoring step of `detect` behaves for one model: the model has
neither `score_samples` nor `decision_function`; or the available scoring
method returns a column; or it raises. -/
inductive ScoreBehavior where
  | absent
  | ok (scores : Column)
  | raises
deriving DecidableEq

/-- One entry of the `self.models` registry as observed by `detect`:
`predictRes = none` means `model.predict(X)` raises; `some preds` is its
return value.  `scoreRes` describes the scoring call on the same `X`. -/
structure DetModel where
  name : String
  predictRes : Option Column
  scoreRes : ScoreBehavior
deriving DecidableEq

/-- The columns one model contributes inside the `try` block of `detect`:
nothing when `predict` raises; the prediction column, then the score column
when scoring is available and succeeds.  When scoring raises, the exception
is caught but the prediction column has already been assigned, so it stays. -/
def runModel (m : DetModel) : List (String × Column) :=
  match m.predictRes with
  | none => []
  | some preds =>
    match m.scoreRes with
    | .ok scores => [(m.name ++ "_prediction", preds), (m.name ++ "_score", scores)]
    | _ => [(m.name ++ "_prediction", preds)]

/-- Result of a successful `detect` call: the assembled columns and the
`is_anomaly` flags (`ensemble_prediction == -1`). -/
structure DetectResult where
  cols : List (String × Column)
  is_anomaly : List Bool

/-- Looks a column up by exact name, as `results['name']` does;
`none` models a `KeyError`. -/
def lookupCol (cols : List (String × Column)) (name : String) : Option Column :=
  (cols.find? (fun c => c.1 = name)).map (fun c => c.2)

/-- The columns accumulated by the per-model loop of `detect`. -/
def flatCols (models : List DetModel) : List (String × Column) :=
  (models.map runModel).flatten

/-- The columns of `results` after `results['ensemble_prediction']` has been
assigned (the ensemble prediction is computed on the per-model columns). -/
def detectCols1 (cfg : EnsembleConfig) (models : List DetModel) (n : ℕ) :
    List (String × Column) :=
  flatCols models ++
    [("ensemble_prediction", ensemblePredict cfg ⟨n, flatCols models⟩)]

/-- The columns of `results` after `results['ensemble_score']` has also been
assigned (the ensemble score is computed on the frame that already holds the
ensemble prediction column). -/
def detectCols2 (cfg : EnsembleConfig) (models : List DetModel) (n : ℕ) :
    List (String × Column) :=
  detectCols1 cfg models n ++
    [("ensemble_score", ensembleScore ⟨n, detectCols1 cfg models n⟩)]

/-- The full column list held by `results` at the end of `detect`: the
ensemble columns are appended exactly when `ensemble.enabled`. -/
def detectAssembled (cfg : EnsembleConfig) (models : List DetModel) (n : ℕ) :
    List (String × Column) :=
  if cfg.enabled then detectCols2 cfg models n else flatCols models

/-- `AnomalyDetector.detect` on `n` feature rows: run every registered model
(each contributing `runModel` columns), append the two ensemble columns when
`ensemble.enabled`, then read `results['ensemble_prediction']` to build
`is_anomaly` — raising a `KeyError` if that column does not exist. -/
def detect (cfg : EnsembleConfig) (models : List DetModel) (n : ℕ) :
    Except String DetectResult :=
  match lookupCol (detectAssembled cfg models n) "ensemble_prediction" with
  | none => .error "KeyError: ensemble_prediction"
  | some ep => .ok ⟨detectAssembled cfg models n, ep.map (fun v => v = -1)⟩

/-! ### The LSTM detector (`src/models/lstm_detector.py`) -/

/-- A trained `LSTMDetector`.  The keras network is a black box to this
pipeline; the only trace of it that `predict`/`score_samples` use is the
mean-squared prediction error of each sliding-window sequence, abstracted
here as `seqError i` for the `i`-th sequence. -/
structure LSTMDetector where
  sequence_length : ℕ
  threshold_value : ℚ
  seqError : ℕ → ℚ

/-- Number of sequences `_create_sequences` builds from `n` input rows:
`len(range(n - sequence_length))`, i.e. `n - k` truncated at 0. -/
def LSTMDetector.numSequences (d : LSTMDetector) (n : ℕ) : ℕ :=
  n - d.sequence_length

/-- `LSTMDetector.score_samples` on `n` input rows: when no sequence can be
formed it returns `np.zeros(len(X))` — a column of `n` zeros — otherwise the
per-sequence prediction errors (one per sequence, `n - k` of them). -/
def LSTMDetector.score_samples (d : LSTMDetector) (n : ℕ) : List ℚ :=
  if d.numSequences n = 0 then List.replicate n 0
  else (List.range (d.numSequences n)).map d.seqError

/-- `LSTMDetector.predict` on `n` input rows: starts from `np.ones(n)` and
assigns `np.where(scores > threshold, -1, 1)` into the slice
`predictions[sequence_length:]`.  That slice has `n - k` cells, and numpy
slice assignment succeeds in exactly two cases: the right-hand side has the
same length `n - k` (elementwise copy), or it has length 1, in which case
its single value is broadcast to the whole slice (a no-op for an empty
slice).  Any other length raises a broadcast `ValueError`. -/
def LSTMDetector.predict (d : LSTMDetector) (n : ℕ) : Except String (List ℚ) :=
  let scores := d.score_samples n
  let labels := scores.map (fun s => if d.threshold_value < s then -1 else 1)
  if scores.length = n - d.sequence_length then
    .ok (List.replicate (min n d.sequence_length) 1 ++ labels)
  else if scores.length = 1 then
    .ok (List.replicate (min n d.sequence_length) 1 ++
      List.replicate (n - d.sequence_length) (labels.headD 1))
  else
    .error "ValueError: could not broadcast input array"

/-! ### The model trainer (`src/models/train.py`) -/

/-- `ModelTrainer` as seen by `train_all_models`, with trained models of
type `α`.  `trainOutcome name` abstracts `train_model(name, features)`
followed by `save_model`: `some m` when both succeed with trained model
`m`, `none` when either raises (unknown model name — `train_model` raises
`ValueError` — or a failing `fit` or save). -/
structure ModelTrainer (α : Type) where
  enabled_models : List String
  trainOutcome : String → Option α

/-- `ModelTrainer.train_all_models`: iterate over `enabled_models`; each
name whose training raises is caught and skipped, each success is recorded
in the returned name → model mapping. -/
def ModelTrainer.train_all_models {α : Type} (t : ModelTrainer α) : List (String × α) :=
  t.enabled_models.filterMap (fun name => (t.trainOutcome name).map (fun m => (name, m)))

/-! ### The feature extractors (`src/feature_engineering/`) -/

/-- The raw event table handed to the extractors.  Each field is one input
column; `none` models a column that is absent from the DataFrame.
Timestamps are epoch seconds (so `total_seconds` of a difference is plain
subtraction). -/
structure EventTable where
  n : ℕ
  session_id : Option (List String)
  user_id : Option (List String)
  action : Option (List String)
  resource : Option (List String)
  status_code : Option (List ℤ)
  bytes_transferred : Option (List ℚ)
  timestamp : Option (List ℚ)
  source_ip : Option (List String)
  destination_ip : Option (List String)

/-- Well-formedness: every column that is present has one cell per row. -/
def EventTable.WF (t : EventTable) : Prop :=
  (∀ c ∈ t.session_id, c.length = t.n) ∧
  (∀ c ∈ t.user_id, c.length = t.n) ∧
  (∀ c ∈ t.action, c.length = t.n) ∧
  (∀ c ∈ t.resource, c.length = t.n) ∧
  (∀ c ∈ t.status_code, c.length = t.n) ∧
  (∀ c ∈ t.bytes_transferred, c.length = t.n) ∧
  (∀ c ∈ t.timestamp, c.length = t.n) ∧
  (∀ c ∈ t.source_ip, c.length = t.n) ∧
  (∀ c ∈ t.destination_ip, c.length = t.n)

/-- `Series.str.contains('kw1|kw2|…', case=False, na=False)` on one cell:
does the lower-cased string contain one of the (lower-case) keywords as a
substring? -/
def containsAny (kws : List String) (s : String) : Bool :=
  kws.any (fun kw => decide (kw.toLower.data <:+: s.toLower.data))

/-- `df.groupby(key)[key].transform('count')`: for every row, the number of
rows sharing its key. -/
def transformCount (keys : List String) : List ℚ :=
  keys.map (fun k => ((keys.filter (fun x => x = k)).length : ℚ))

/-- `df.groupby(keys)[vals].transform('nunique')`: for every row, the number
of distinct `vals` entries among the rows sharing its key. -/
def transformNunique (keys : List String) (vals : List String) : List ℚ :=
  (List.range keys.length).map (fun i =>
    ((((List.range keys.length).filter
        (fun j => keys.getD j "" = keys.getD i "")).map
        (fun j => vals.getD j "")).dedup.length : ℚ))

/-- `df.groupby(keys)[vals].transform('min')`: per row, the group minimum. -/
def transformMin (keys : List String) (vals : List ℚ) : List ℚ :=
  (List.range keys.length).map (fun i =>
    colMin (((List.range keys.length).filter
      (fun j => keys.getD j "" = keys.getD i "")).map (fun j => vals.getD j 0)))

/-- `df.groupby(keys)[vals].transform('max')`: per row, the group maximum. -/
def transformMax (keys : List String) (vals : List ℚ) : List ℚ :=
  (List.range keys.length).map (fun i =>
    colMax (((List.range keys.length).filter
      (fun j => keys.getD j "" = keys.getD i "")).map (fun j => vals.getD j 0)))

/-! #### Behavioral features (`behavioral_features.py`) -/

/-- `BehavioralFeatures._failed_login_count`: zeros when `action` or
`status_code` is absent.  Otherwise a row is a failed login when its action
contains "login" and its status is 401 or 403; with a `session_id` column
the filtered-groupby-transform-reindex pattern gives each failed-login row
the count of failed logins in its session and every other row 0; without
one, the 0/1 indicator itself. -/
def failed_login_count (t : EventTable) : List ℚ :=
  match t.action, t.status_code with
  | some acts, some stats =>
    let fl : ℕ → Bool := fun i =>
      containsAny ["login"] (acts.getD i "") &&
        (stats.getD i 0 = 401 || stats.getD i 0 = 403)
    match t.session_id with
    | some sids =>
      (List.range t.n).map (fun i =>
        if fl i then
          (((List.range t.n).filter
            (fun j => fl j && sids.getD j "" = sids.getD i "")).length : ℚ)
        else 0)
    | none => (List.range t.n).map (fun i => if fl i then 1 else 0)
  | _, _ => List.replicate t.n 0

/-- Keyword set of `BehavioralFeatures._privilege_escalation_attempts`. -/
def escalationKeywords : List String :=
  ["sudo", "admin", "root", "privilege", "escalate", "elevate"]

/-- `BehavioralFeatures._privilege_escalation_attempts`: zeros when `action`
is absent; otherwise per-session counts of keyword-matching rows (assigned
only to the matching rows, 0 elsewhere) when `session_id` is present, else
the 0/1 indicator. -/
def privilege_escalation_attempts (t : EventTable) : List ℚ :=
  match t.action with
  | some acts =>
    let esc : ℕ → Bool := fun i => containsAny escalationKeywords (acts.getD i "")
    match t.session_id with
    | some sids =>
      (List.range t.n).map (fun i =>
        if esc i then
          (((List.range t.n).filter
            (fun j => esc j && sids.getD j "" = sids.getD i "")).length : ℚ)
        else 0)
    | none => (List.range t.n).map (fun i => if esc i then 1 else 0)
  | none => List.replicate t.n 0

/-- `BehavioralFeatures._unique_resources_accessed`: zeros when `resource`
or `session_id` is absent, else the per-session distinct-resource count. -/
def unique_resources_accessed (t : EventTable) : List ℚ :=
  match t.resource, t.session_id with
  | some ress, some sids => transformNunique sids ress
  | _, _ => List.replicate t.n 0

/-- `BehavioralFeatures._session_duration`: zeros when `timestamp` or
`session_id` is absent, else per row `max − min` of the timestamps of its
session, in seconds. -/
def session_duration (t : EventTable) : List ℚ :=
  match t.timestamp, t.session_id with
  | some ts, some sids =>
    (List.range t.n).map (fun i =>
      (transformMax sids ts).getD i 0 - (transformMin sids ts).getD i 0)
  | _, _ => List.replicate t.n 0

/-- `BehavioralFeatures._action_frequency`: zeros when `session_id` is
absent; else the per-session action count divided by the session duration
in minutes, where a zero duration is replaced by 1. -/
def action_frequency (t : EventTable) : List ℚ :=
  match t.session_id with
  | some sids =>
    (List.range t.n).map (fun i =>
      let dur := (session_duration t).getD i 0 / 60
      (transformCount sids).getD i 0 / (if dur = 0 then 1 else dur))
  | none => List.replicate t.n 0

/-- `BehavioralFeatures.extract`: one column per feature named in the
configured feature list, in source order. -/
def behavioralExtract (features : List String) (t : EventTable) :
    List (String × Column) :=
  (if features.contains "failed_login_count" then
    [("failed_login_count", failed_login_count t)] else []) ++
  (if features.contains "privilege_escalation_attempts" then
    [("privilege_escalation_attempts", privilege_escalation_attempts t)] else []) ++
  (if features.contains "unique_resources_accessed" then
    [("unique_resources_accessed", unique_resources_accessed t)] else []) ++
  (if features.contains "session_duration" then
    [("session_duration", session_duration t)] else []) ++
  (if features.contains "action_frequency" then
    [("action_frequency", action_frequency t)] else [])

/-! #### Network features (`network_features.py`) -/

/-- `NetworkFeatures._bytes_transferred`: the column itself (with NaN
filled by 0 — cells are already finite in this model) or zeros when the
column is absent. -/
def bytes_transferred_feature (t : EventTable) : List ℚ :=
  match t.bytes_transferred with
  | some bs => bs
  | none => List.replicate t.n 0

/-- `NetworkFeatures._connection_count`: a column of ONES when `session_id`
is absent (`pd.Series(1, index=df.index)`), else the per-session row count. -/
def connection_count (t : EventTable) : List ℚ :=
  match t.session_id with
  | some sids => transformCount sids
  | none => List.replicate t.n 1

/-- `NetworkFeatures._unique_destinations`: ONES when `session_id` is absent;
with sessions, the per-session distinct `destination_ip` count, falling back
to `resource`, falling back to ones. -/
def unique_destinations (t : EventTable) : List ℚ :=
  match t.session_id with
  | none => List.replicate t.n 1
  | some sids =>
    match t.destination_ip with
    | some dips => transformNunique sids dips
    | none =>
      match t.resource with
      | some ress => transformNunique sids ress
      | none => List.replicate t.n 1

/-- `NetworkFeatures._get_session_duration`: ones when `timestamp` or
`session_id` is absent; else per-session `max − min` seconds with exact
zeros replaced by 1 (`duration.replace(0, 1)`). -/
def getSessionDuration (t : EventTable) : List ℚ :=
  match t.timestamp, t.session_id with
  | some ts, some sids =>
    (List.range t.n).map (fun i =>
      let d := (transformMax sids ts).getD i 0 - (transformMin sids ts).getD i 0
      if d = 0 then 1 else d)
  | _, _ => List.replicate t.n 1

/-- `NetworkFeatures._port_scan_indicators`: zeros when `session_id` is
absent; else the weighted sum of three indicators, each guarded by the
presence of the column it needs: >10 unique destinations (+0.3), >20
connections per minute (+0.3), and — on failed rows only, via the
filtered-transform-reindex pattern — >5 failed requests in the session
(+0.4). -/
def port_scan_score (t : EventTable) : List ℚ :=
  match t.session_id with
  | none => List.replicate t.n 0
  | some sids =>
    let ind1 : ℕ → ℚ := fun i =>
      match t.destination_ip with
      | some dips => if 10 < (transformNunique sids dips).getD i 0 then 3/10 else 0
      | none => 0
    let ind2 : ℕ → ℚ := fun i =>
      match t.timestamp with
      | some _ =>
        let rate := (transformCount sids).getD i 0 /
          ((getSessionDuration t).getD i 0 / 60 + 1)
        if 20 < rate then 3/10 else 0
      | none => 0
    let ind3 : ℕ → ℚ := fun i =>
      match t.status_code with
      | some stats =>
        let failed : ℕ → Bool := fun j =>
          stats.getD j 0 = 403 || stats.getD j 0 = 404 ||
          stats.getD j 0 = 500 || stats.getD j 0 = 503
        let failedCount : ℚ :=
          if failed i then
            (((List.range t.n).filter
              (fun j => failed j && sids.getD j "" = sids.getD i "")).length : ℚ)
          else 0
        if 5 < failedCount then 4/10 else 0
      | none => 0
    (List.range t.n).map (fun i => ind1 i + ind2 i + ind3 i)

/-- Keyword set of `NetworkFeatures._lateral_movement_score` (shorter than
the behavioral one). -/
def lateralEscalationKeywords : List String := ["sudo", "admin", "root", "privilege"]

/-- `NetworkFeatures._lateral_movement_score`: zeros when `session_id` is
absent; else >5 unique resources per session (+0.3), any escalation-keyword
action on the row (via the filtered-transform-reindex count, +0.4), and a
user reaching >2 distinct source IPs (+0.3). -/
def lateral_movement_score (t : EventTable) : List ℚ :=
  match t.session_id with
  | none => List.replicate t.n 0
  | some sids =>
    let ind1 : ℕ → ℚ := fun i =>
      match t.resource with
      | some ress => if 5 < (transformNunique sids ress).getD i 0 then 3/10 else 0
      | none => 0
    let ind2 : ℕ → ℚ := fun i =>
      match t.action with
      | some acts =>
        let esc : ℕ → Bool := fun j => containsAny lateralEscalationKeywords (acts.getD j "")
        let escCount : ℚ :=
          if esc i then
            (((List.range t.n).filter
              (fun j => esc j && sids.getD j "" = sids.getD i "")).length : ℚ)
          else 0
        if 0 < escCount then 4/10 else 0
      | none => 0
    let ind3 : ℕ → ℚ := fun i =>
      match t.source_ip, t.user_id with
      | some ips, some uids => if 2 < (transformNunique uids ips).getD i 0 then 3/10 else 0
      | _, _ => 0
    (List.range t.n).map (fun i => ind1 i + ind2 i + ind3 i)

/-- `NetworkFeatures`: the configured feature list plus the `np.log1p`
black box used for `bytes_transferred_log`. -/
structure NetworkConfig where
  features : List String
  log1p : ℚ → ℚ

/-- `NetworkFeatures.extract`: columns per configured feature, in source
order; the `bytes_transferred` toggle adds the raw and log1p columns, and
the `port_scan_indicators` toggle adds a column named `port_scan_score`. -/
def networkExtract (cfg : NetworkConfig) (t : EventTable) :
    List (String × Column) :=
  (if cfg.features.contains "bytes_transferred" then
    [("bytes_transferred", bytes_transferred_feature t),
     ("bytes_transferred_log", (bytes_transferred_feature t).map cfg.log1p)] else []) ++
  (if cfg.features.contains "connection_count" then
    [("connection_count", connection_count t)] else []) ++
  (if cfg.features.contains "unique_destinations" then
    [("unique_destinations", unique_destinations t)] else []) ++
  (if cfg.features.contains "port_scan_indicators" then
    [("port_scan_score", port_scan_score t)] else []) ++
  (if cfg.features.contains "lateral_movement_score" then
    [("lateral_movement_score", lateral_movement_score t)] else [])

/-! #### Temporal features (`temporal_features.py`) -/

/-- `TemporalFeatures`: the configured feature list plus black boxes for
the pandas `dt.hour` / `dt.dayofweek` accessors on an epoch-seconds
timestamp and for the cyclic encodings `np.sin(2π·v/period)` /
`np.cos(2π·v/period)` (transcendental, abstracted). -/
structure TemporalConfig where
  features : List String
  hourOf : ℚ → ℤ
  dayOf : ℚ → ℤ
  sinCyc : ℚ → ℚ → ℚ
  cosCyc : ℚ → ℚ → ℚ

/-- `df.groupby(key)['timestamp'].diff().dt.total_seconds().fillna(0)`:
per row, the time since the previous row with the same key, 0 for the
first row of its group. -/
def groupDiff (keys : List String) (ts : List ℚ) : List ℚ :=
  (List.range ts.length).map (fun i =>
    match ((List.range i).filter (fun j => keys.getD j "" = keys.getD i "")).getLast? with
    | some j => ts.getD i 0 - ts.getD j 0
    | none => 0)

/-- `df['timestamp'].diff().dt.total_seconds().fillna(0)`: the ungrouped
difference to the previous row, 0 for the first row. -/
def globalDiff (ts : List ℚ) : List ℚ :=
  (List.range ts.length).map (fun i =>
    match i with
    | 0 => 0
    | j + 1 => ts.getD (j + 1) 0 - ts.getD j 0)

/-- `TemporalFeatures._time_since_last_action`: grouped by `session_id`,
falling back to `user_id`, falling back to the global diff. -/
def time_since_last_action (t : EventTable) (ts : List ℚ) : List ℚ :=
  match t.session_id with
  | some sids => groupDiff sids ts
  | none =>
    match t.user_id with
    | some uids => groupDiff uids ts
    | none => globalDiff ts

/-- `TemporalFeatures._action_velocity`: zeros when `session_id` is absent;
else the per-session action count divided by the session duration in
minutes, zero durations replaced by 1. -/
def action_velocity (t : EventTable) (ts : List ℚ) : List ℚ :=
  match t.session_id with
  | some sids =>
    (List.range t.n).map (fun i =>
      let dur := ((transformMax sids ts).getD i 0 - (transformMin sids ts).getD i 0) / 60
      (transformCount sids).getD i 0 / (if dur = 0 then 1 else dur))
  | none => List.replicate t.n 0

/-- `TemporalFeatures._is_business_hours`: 1 when the row falls on a
weekday (dayofweek < 5) between 9:00 and 17:00, else 0. -/
def is_business_hours (cfg : TemporalConfig) (ts : List ℚ) : List ℚ :=
  ts.map (fun x =>
    if cfg.dayOf x < 5 ∧ 9 ≤ cfg.hourOf x ∧ cfg.hourOf x < 17 then 1 else 0)

/-- `TemporalFeatures.extract`: when the `timestamp` column is absent the
whole extractor returns an EMPTY feature frame (all temporal features are
omitted, with a warning).  Otherwise one column group per configured
feature: hour of day with its sine/cosine pair, day of week with its pair,
business-hours flag, time since last action, action velocity. -/
def temporalExtract (cfg : TemporalConfig) (t : EventTable) :
    List (String × Column) :=
  match t.timestamp with
  | none => []
  | some ts =>
    (if cfg.features.contains "hour_of_day" then
      [("hour_of_day", ts.map (fun x => (cfg.hourOf x : ℚ))),
       ("hour_sin", ts.map (fun x => cfg.sinCyc 24 (cfg.hourOf x : ℚ))),
       ("hour_cos", ts.map (fun x => cfg.cosCyc 24 (cfg.hourOf x : ℚ)))] else []) ++
    (if cfg.features.contains "day_of_week" then
      [("day_of_week", ts.map (fun x => (cfg.dayOf x : ℚ))),
       ("day_sin", ts.map (fun x => cfg.sinCyc 7 (cfg.dayOf x : ℚ))),
       ("day_cos", ts.map (fun x => cfg.cosCyc 7 (cfg.dayOf x : ℚ)))] else []) ++
    (if cfg.features.contains "is_business_hours" then
      [("is_business_hours", is_business_hours cfg ts)] else []) ++
    (if cfg.features.contains "time_since_last_action" then
      [("time_since_last_action", time_since_last_action t ts)] else []) ++
    (if cfg.features.contains "action_velocity" then
      [("action_velocity", action_velocity t ts)] else [])

/-! ## Lemmas about column minima, maxima and min-max normalization -/

theorem colMin_le_of_mem : ∀ (xs : List ℚ) (x : ℚ), x ∈ xs → colMin xs ≤ x
  | [], x, h => absurd h (List.not_mem_nil x)
  | [a], x, h => by
    rcases List.mem_singleton.mp h with rfl
    exact le_of_eq rfl
  | a :: b :: t, x, h => by
    rcases List.mem_cons.mp h with rfl | h2
    · exact min_le_left _ _
    · exact le_trans (min_le_right _ _) (colMin_le_of_mem (b :: t) x h2)

theorem le_colMax_of_mem : ∀ (xs : List ℚ) (x : ℚ), x ∈ xs → x ≤ colMax xs
  | [], x, h => absurd h (List.not_mem_nil x)
  | [a], x, h => by
    rcases List.mem_singleton.mp h with rfl
    exact le_of_eq rfl
  | a :: b :: t, x, h => by
    rcases List.mem_cons.mp h with rfl | h2
    · exact le_max_left _ _
    · exact le_trans (le_colMax_of_mem (b :: t) x h2) (le_max_right _ _)

theorem colMin_mem : ∀ (xs : List ℚ), xs ≠ [] → colMin xs ∈ xs
  | [], h => absurd rfl h
  | [a], _ => List.mem_singleton.mpr rfl
  | a :: b :: t, _ => by
    rcases min_choice a (colMin (b :: t)) with h | h
    · rw [show colMin (a :: b :: t) = min a (colMin (b :: t)) from rfl, h]
      exact List.mem_cons_self a _
    · rw [show colMin (a :: b :: t) = min a (colMin (b :: t)) from rfl, h]
      exact List.mem_cons_of_mem a (colMin_mem (b :: t) (by simp))

theorem colMax_mem : ∀ (xs : List ℚ), xs ≠ [] → colMax xs ∈ xs
  | [], h => absurd rfl h
  | [a], _ => List.mem_singleton.mpr rfl
  | a :: b :: t, _ => by
    rcases max_choice a (colMax (b :: t)) with h | h
    · rw [show colMax (a :: b :: t) = max a (colMax (b :: t)) from rfl, h]
      exact List.mem_cons_self a _
    · rw [show colMax (a :: b :: t) = max a (colMax (b :: t)) from rfl, h]
      exact List.mem_cons_of_mem a (colMax_mem (b :: t) (by simp))

/-- Every entry of a min-max-normalized column lies in [0, 1]. -/
theorem minmaxNormalize_bounds (xs : List ℚ) :
    ∀ y ∈ minmaxNormalize xs, 0 ≤ y ∧ y ≤ 1 := by
  intro y hy
  unfold minmaxNormalize at hy
  by_cases h : colMin xs < colMax xs
  · rw [if_pos h] at hy
    rcases List.mem_map.mp hy with ⟨x, hx, rfl⟩
    have hgap : (0 : ℚ) < colMax xs - colMin xs := sub_pos.mpr h
    constructor
    · exact div_nonneg (sub_nonneg.mpr (colMin_le_of_mem xs x hx)) (le_of_lt hgap)
    · exact (div_le_one hgap).mpr (sub_le_sub_right (le_colMax_of_mem xs x hx) _)
  · rw [if_neg h] at hy
    rcases List.mem_map.mp hy with ⟨x, _, rfl⟩
    exact ⟨le_refl 0, by norm_num⟩

/-- Min-max normalization maps a constant column to the all-zero column. -/
theorem minmaxNormalize_const (xs : List ℚ) (q : ℚ) (hc : ∀ x ∈ xs, x = q) :
    ∀ y ∈ minmaxNormalize xs, y = 0 := by
  intro y hy
  unfold minmaxNormalize at hy
  by_cases h : colMin xs < colMax xs
  · exfalso
    rcases List.eq_nil_or_concat xs with rfl | ⟨_, _, rfl⟩
    · simp [colMin, colMax] at h
    · have h1 := hc _ (colMin_mem _ (by simp))
      have h2 := hc _ (colMax_mem _ (by simp))
      rw [h1, h2] at h
      exact lt_irrefl q h
  · rw [if_neg h] at hy
    rcases List.mem_map.mp hy with ⟨x, _, rfl⟩
    rfl

/-! ## Lemmas about majority voting -/

theorem le_foldr_max : ∀ (l : List ℕ) (x : ℕ), x ∈ l → x ≤ l.foldr max 0 := by
  intro l
  induction l with
  | nil => intro x h; exact absurd h (List.not_mem_nil x)
  | cons a t ih =>
    intro x h
    rcases List.mem_cons.mp h with rfl | h2
    · exact le_max_left _ _
    · exact le_trans (ih x h2) (le_max_right _ _)

theorem foldr_max_mem : ∀ (l : List ℕ), l.foldr max 0 ∈ l ∨ l.foldr max 0 = 0 := by
  intro l
  induction l with
  | nil => right; rfl
  | cons a t ih =>
    rcases max_choice a (t.foldr max 0) with h | h
    · left; rw [List.foldr_cons, h]; exact List.mem_cons_self a t
    · rcases ih with h2 | h2
      · left; rw [List.foldr_cons, h]; exact List.mem_cons_of_mem a h2
      · right; rw [List.foldr_cons, h, h2]

/-- No vote value occurs more often than the most frequent one. -/
theorem count_le_maxVoteCount (xs : List ℚ) (v : ℚ) : xs.count v ≤ maxVoteCount xs := by
  by_cases h : v ∈ xs
  · exact le_foldr_max _ _ (List.mem_map.mpr ⟨v, h, rfl⟩)
  · rw [List.count_eq_zero.mpr h]; exact Nat.zero_le _

/-- In a non-empty row some value attains the maximal multiplicity. -/
theorem maxVoteCount_attained (xs : List ℚ) (hne : xs ≠ []) :
    ∃ v ∈ xs, xs.count v = maxVoteCount xs := by
  rcases foldr_max_mem (xs.map (fun v => xs.count v)) with h | h
  · rcases List.mem_map.mp h with ⟨v, hv, he⟩
    exact ⟨v, hv, he⟩
  · rcases List.exists_mem_of_ne_nil xs hne with ⟨a, ha⟩
    refine ⟨a, ha, le_antisymm (count_le_maxVoteCount xs a) ?_⟩
    rw [show maxVoteCount xs = 0 from h]
    exact Nat.zero_le _

/-- `rowMode` of a non-empty row is one of its entries and has maximal
multiplicity among them. -/
theorem rowMode_mem_and_maximal (xs : List ℚ) (hne : xs ≠ []) :
    rowMode xs ∈ xs ∧ ∀ v : ℚ, xs.count v ≤ xs.count (rowMode xs) := by
  rcases maxVoteCount_attained xs hne with ⟨v0, hv0, hc0⟩
  have hv0s : v0 ∈ xs.insertionSort (· ≤ ·) :=
    (List.perm_insertionSort (· ≤ ·) xs).mem_iff.mpr hv0
  have hfil : v0 ∈ (xs.insertionSort (· ≤ ·)).filter
      (fun v => xs.count v = maxVoteCount xs) :=
    List.mem_filter.mpr ⟨hv0s, by simp [hc0]⟩
  have hmem : rowMode xs ∈ (xs.insertionSort (· ≤ ·)).filter
      (fun v => xs.count v = maxVoteCount xs) := by
    unfold rowMode
    rcases List.exists_cons_of_ne_nil (List.ne_nil_of_mem hfil) with ⟨h, t, he⟩
    rw [he]
    exact List.mem_cons_self h t
  have h2 := List.mem_filter.mp hmem
  constructor
  · exact (List.perm_insertionSort (· ≤ ·) xs).mem_iff.mp h2.1
  · intro v
    have h3 : xs.count (rowMode xs) = maxVoteCount xs := by
      have := h2.2; simpa using this
    rw [h3]
    exact count_le_maxVoteCount xs v

/-- Tie-breaking of `rowMode`: when every vote is ±1 and both values occur
equally often, the smallest candidate −1 is returned. -/
theorem rowMode_tie (xs : List ℚ) (hne : xs ≠ []) (hpm : ∀ v ∈ xs, v = -1 ∨ v = 1)
    (heq : xs.count (-1) = xs.count 1) : rowMode xs = -1 := by
  have hall : ∀ v ∈ xs, xs.count v = xs.count 1 := by
    intro v hv
    rcases hpm v hv with rfl | rfl
    · exact heq
    · rfl
  have hmax : maxVoteCount xs = xs.count 1 := by
    rcases foldr_max_mem (xs.map (fun v => xs.count v)) with h | h
    · rcases List.mem_map.mp h with ⟨v, hv, he⟩
      rw [show maxVoteCount xs = (xs.map (fun v => xs.count v)).foldr max 0 from rfl, ← he,
        hall v hv]
    · exfalso
      rcases List.exists_mem_of_ne_nil xs hne with ⟨a, ha⟩
      have h1 : xs.count a ≤ maxVoteCount xs := count_le_maxVoteCount xs a
      have h2 : 0 < xs.count a := List.count_pos_iff.mpr ha
      rw [show maxVoteCount xs = (xs.map (fun v => xs.count v)).foldr max 0 from rfl, h] at h1
      omega
  have hfil : (xs.insertionSort (· ≤ ·)).filter (fun v => xs.count v = maxVoteCount xs)
      = xs.insertionSort (· ≤ ·) := by
    apply List.filter_eq_self.mpr
    intro a ha
    have : a ∈ xs := (List.perm_insertionSort (· ≤ ·) xs).mem_iff.mp ha
    simp [hall a this, hmax]
  have hone : 0 < xs.count 1 := by
    rcases List.exists_mem_of_ne_nil xs hne with ⟨a, ha⟩
    have h1 := List.count_pos_iff.mpr ha
    rw [hall a ha] at h1
    exact h1
  have hm1 : (-1 : ℚ) ∈ xs := by
    apply List.count_pos_iff.mp
    rw [heq]
    exact hone
  have hm1s : (-1 : ℚ) ∈ xs.insertionSort (· ≤ ·) :=
    (List.perm_insertionSort (· ≤ ·) xs).mem_iff.mpr hm1
  have hsorted : List.Sorted (· ≤ ·) (xs.insertionSort (· ≤ ·)) :=
    List.sorted_insertionSort (· ≤ ·) xs
  unfold rowMode
  rw [hfil]
  rcases List.exists_cons_of_ne_nil (List.ne_nil_of_mem hm1s) with ⟨h, t, he⟩
  rw [he]
  rw [he] at hm1s hsorted
  have hh : h ∈ xs := (List.perm_insertionSort (· ≤ ·) xs).mem_iff.mp
    (by rw [he]; exact List.mem_cons_self h t)
  rcases List.mem_cons.mp hm1s with hcase | hcase
  · simp [hcase.symm]
  · have hle : h ≤ -1 := (List.sorted_cons.mp hsorted).1 _ hcase
    rcases hpm h hh with rfl | rfl
    · rfl
    · norm_num at hle

theorem getD_map_range {α : Type} (f : ℕ → α) (d : α) (n i : ℕ) (hi : i < n) :
    ((List.range n).map f).getD i d = f i := by
  rw [List.getD_eq_getElem?_getD, List.getElem?_map, List.getElem?_range hi]
  rfl

/-- With at least one prediction column and a method other than
`weighted`, `_ensemble_predict` takes the per-row mode. -/
theorem ensemblePredict_voting_eq (cfg : EnsembleConfig) (res : ResultsFrame)
    (hm : ¬ cfg.method = "weighted") (hne : colsEndingWith res "_prediction" ≠ []) :
    ensemblePredict cfg res =
      (List.range res.nRows).map
        (fun i => rowMode (rowAt (colsEndingWith res "_prediction") i)) := by
  have h1 : ¬ ((colsEndingWith res "_prediction").isEmpty = true) := by
    simpa [List.isEmpty_iff] using hne
  simp only [ensemblePredict]
  rw [if_neg h1, if_neg hm]

/-- With at least one prediction column, `_ensemble_predict` under the
`weighted` method takes the sign of the weighted average. -/
theorem ensemblePredict_weighted_eq (cfg : EnsembleConfig) (res : ResultsFrame)
    (hm : cfg.method = "weighted") (hne : colsEndingWith res "_prediction" ≠ []) :
    ensemblePredict cfg res =
      (List.range res.nRows).map (fun i =>
        if ((colsEndingWith res "_prediction").map (fun c =>
              c.2.getD i 0 * weightOf cfg.weights (strReplace c.1 "_prediction"))).sum /
            ((colsEndingWith res "_prediction").map (fun c =>
              weightOf cfg.weights (strReplace c.1 "_prediction"))).sum < 0
        then -1 else 1) := by
  have h1 : ¬ ((colsEndingWith res "_prediction").isEmpty = true) := by
    simpa [List.isEmpty_iff] using hne
  simp only [ensemblePredict]
  rw [if_neg h1, if_pos hm]

/-! ## Lemmas about column names and lookup in `detect` -/

theorem string_append_right_cancel {a b c : String} (h : a ++ c = b ++ c) : a = b := by
  apply String.ext
  have h2 := congrArg String.data h
  rw [String.data_append, String.data_append] at h2
  exact List.append_cancel_right h2

/-- A name ending in `_score` never equals a name ending in `_prediction`. -/
theorem score_append_ne_prediction_append (a b : String) :
    a ++ "_score" ≠ b ++ "_prediction" := by
  intro h
  have h2 := congrArg String.data h
  rw [String.data_append, String.data_append] at h2
  have h3 := congrArg List.getLast? h2
  rw [List.getLast?_append, List.getLast?_append] at h3
  have e1 : ("_score".data).getLast? = some 'e' := by decide
  have e2 : ("_prediction".data).getLast? = some 'n' := by decide
  rw [e1, e2] at h3
  simp [Option.or] at h3

/-- The column names one model can contribute: none, only its prediction
column, or its prediction and score columns. -/
theorem runModel_names (m : DetModel) :
    (runModel m).map Prod.fst = [] ∨
    (runModel m).map Prod.fst = [m.name ++ "_prediction"] ∨
    (runModel m).map Prod.fst = [m.name ++ "_prediction", m.name ++ "_score"] := by
  unfold runModel
  rcases m.predictRes with _ | p
  · left; rfl
  · rcases m.scoreRes with _ | s | _
    · right; left; rfl
    · right; right; rfl
    · right; left; rfl

/-- A name appears among the per-model columns iff some model contributes
a column of that name. -/
theorem mem_flatCols_names_iff (models : List DetModel) (target : String) :
    target ∈ (flatCols models).map Prod.fst ↔
      ∃ m ∈ models, target ∈ (runModel m).map Prod.fst := by
  constructor
  · intro h
    rcases List.mem_map.mp h with ⟨c, hc, rfl⟩
    rcases List.mem_flatten.mp hc with ⟨l, hl, hcl⟩
    rcases List.mem_map.mp hl with ⟨m, hm, rfl⟩
    exact ⟨m, hm, List.mem_map.mpr ⟨c, hcl, rfl⟩⟩
  · rintro ⟨m, hm, h⟩
    rcases List.mem_map.mp h with ⟨c, hc, rfl⟩
    exact List.mem_map.mpr ⟨c, List.mem_flatten.mpr
      ⟨runModel m, List.mem_map.mpr ⟨m, hm, rfl⟩, hc⟩, rfl⟩

/-- If no registered model is literally named `ensemble`, no per-model
column is named `ensemble_prediction`. -/
theorem flat_no_ensemble_prediction (models : List DetModel)
    (hname : ∀ m ∈ models, m.name ≠ "ensemble") :
    "ensemble_prediction" ∉ (flatCols models).map Prod.fst := by
  intro h
  rcases (mem_flatCols_names_iff models _).mp h with ⟨m, hm, hmem⟩
  rcases runModel_names m with he | he | he
  · rw [he] at hmem
    exact absurd hmem (List.not_mem_nil _)
  · rw [he] at hmem
    rcases List.mem_singleton.mp hmem with hp
    have : m.name = "ensemble" := string_append_right_cancel
      (by rw [← hp]; decide)
    exact hname m hm this
  · rw [he] at hmem
    rcases List.mem_cons.mp hmem with hp | hp
    · have : m.name = "ensemble" := string_append_right_cancel
        (by rw [← hp]; decide)
      exact hname m hm this
    · rcases List.mem_singleton.mp hp with hsc
      exact score_append_ne_prediction_append m.name "ensemble"
        (by rw [← hsc]; decide)

theorem lookupCol_eq_none (cols : List (String × Column)) (name : String)
    (h : name ∉ cols.map Prod.fst) : lookupCol cols name = none := by
  unfold lookupCol
  have hfind : List.find? (fun c => decide (c.1 = name)) cols = none := by
    apply List.find?_eq_none.mpr
    intro c hc
    simp only [decide_eq_true_eq]
    intro he
    exact h (List.mem_map.mpr ⟨c, hc, he⟩)
  rw [hfind]
  rfl

theorem lookupCol_append (l1 l2 : List (String × Column)) (name : String)
    (h : lookupCol l1 name = none) :
    lookupCol (l1 ++ l2) name = lookupCol l2 name := by
  unfold lookupCol at h ⊢
  rw [List.find?_append]
  rcases he : List.find? (fun c => decide (c.1 = name)) l1 with _ | c
  · rw [he]
    rfl
  · rw [he] at h
    exact absurd h (by simp)

/-- `_ensemble_predict` always returns one prediction per sample. -/
theorem ensemblePredict_length (cfg : EnsembleConfig) (res : ResultsFrame) :
    (ensemblePredict cfg res).length = res.nRows := by
  unfold ensemblePredict
  by_cases h : (colsEndingWith res "_prediction").isEmpty = true
  · rw [if_pos h, List.length_replicate]
  · rw [if_neg h]
    by_cases h2 : cfg.method = "weighted"
    · rw [if_pos h2, List.length_map, List.length_range]
    · rw [if_neg h2, List.length_map, List.length_range]

/-- With the ensemble step enabled and no model named `ensemble`,
`detect` always succeeds, returning the assembled columns and the
anomaly flags derived from the appended ensemble prediction column. -/
theorem detect_enabled_eq (cfg : EnsembleConfig) (models : List DetModel) (n : ℕ)
    (hen : cfg.enabled = true) (hname : ∀ m ∈ models, m.name ≠ "ensemble") :
    detect cfg models n = .ok ⟨detectCols2 cfg models n,
      (ensemblePredict cfg ⟨n, flatCols models⟩).map (fun v => decide (v = -1))⟩ := by
  have hnone : lookupCol (flatCols models) "ensemble_prediction" = none :=
    lookupCol_eq_none _ _ (flat_no_ensemble_prediction models hname)
  have hlook : lookupCol (detectCols2 cfg models n) "ensemble_prediction" =
      some (ensemblePredict cfg ⟨n, flatCols models⟩) := by
    rw [detectCols2, detectCols1, List.append_assoc, lookupCol_append _ _ _ hnone]
    simp [lookupCol]
  have hasm : detectAssembled cfg models n = detectCols2 cfg models n := by
    simp [detectAssembled, hen]
  unfold detect
  rw [hasm, hlook]

/-- The names of the final `detect` columns: the per-model ones followed by
the two ensemble columns. -/
theorem detectCols2_names (cfg : EnsembleConfig) (models : List DetModel) (n : ℕ) :
    (detectCols2 cfg models n).map Prod.fst =
      (flatCols models).map Prod.fst ++ ["ensemble_prediction", "ensemble_score"] := by
  rw [detectCols2, detectCols1, List.append_assoc, List.map_append]
  rfl

/-- If the model `f` itself contributes no column named `f.name ++ suffix`
(for the two possible suffixes), then — model names being distinct — no
per-model column at all carries that name. -/
theorem fname_col_not_in_flat (models : List DetModel) (f : DetModel)
    (hnodup : (models.map DetModel.name).Nodup) (hf : f ∈ models)
    (suffix : String) (hsuf : suffix = "_prediction" ∨ suffix = "_score")
    (hself : f.name ++ suffix ∉ (runModel f).map Prod.fst) :
    f.name ++ suffix ∉ (flatCols models).map Prod.fst := by
  intro h
  rcases (mem_flatCols_names_iff models _).mp h with ⟨m, hm, hmem⟩
  by_cases hnm : m.name = f.name
  · have : m = f := List.inj_on_of_nodup_map hnodup hm hf hnm
    subst this
    rw [hnm] at hmem
    exact hself hmem
  · rcases runModel_names m with he | he | he
    · rw [he] at hmem
      exact absurd hmem (List.not_mem_nil _)
    · rw [he] at hmem
      have hp := List.mem_singleton.mp hmem
      rcases hsuf with rfl | rfl
      · exact hnm (string_append_right_cancel hp.symm)
      · exact score_append_ne_prediction_append f.name m.name hp
    · rw [he] at hmem
      rcases List.mem_cons.mp hmem with hp | hp
      · rcases hsuf with rfl | rfl
        · exact hnm (string_append_right_cancel hp.symm)
        · exact score_append_ne_prediction_append f.name m.name hp
      · have hp2 := List.mem_singleton.mp hp
        rcases hsuf with rfl | rfl
        · exact score_append_ne_prediction_append m.name f.name hp2.symm
        · exact hnm (string_append_right_cancel hp2.symm)

/-! ## Claim theorems -/

/-- C1: the feature matrix produced by `FeatureEngineer.transform` has no
NaN or infinite values, every numeric column's values lie within [0, 1],
and a column whose values are all equal is mapped to the constant 0
(NaN/Inf being replaced by 0 before the per-column min-max normalization
`(x - min) / (max - min)` is applied). -/
theorem transform_no_nan_bounded_const_zero (col : List EVal) :
    (∀ v ∈ transformColumn col,
      EVal.isFinite v = true ∧ ∃ q : ℚ, v = EVal.num q ∧ 0 ≤ q ∧ q ≤ 1) ∧
    ((∃ c, ∀ v ∈ col, v = c) → ∀ v ∈ transformColumn col, v = EVal.num 0) := by
  constructor
  · intro v hv
    rcases List.mem_map.mp hv with ⟨q, hq, rfl⟩
    exact ⟨rfl, q, rfl, minmaxNormalize_bounds _ q hq⟩
  · rintro ⟨c, hc⟩ v hv
    rcases List.mem_map.mp hv with ⟨q, hq, rfl⟩
    have hconst : ∀ x ∈ col.map cleanVal, x = cleanVal c := by
      intro x hx
      rcases List.mem_map.mp hx with ⟨w, hw, rfl⟩
      rw [hc w hw]
    rw [minmaxNormalize_const _ _ hconst q hq]

/-- Witness for C1 at the concrete column `[3, NaN, inf]` (giving the
normalized entry 1) and the constant column `[inf, inf]` (mapped to 0). -/
theorem transform_no_nan_bounded_const_zero_witness :
    (EVal.isFinite (EVal.num 1) = true ∧
      ∃ q : ℚ, EVal.num 1 = EVal.num q ∧ 0 ≤ q ∧ q ≤ 1) ∧
    EVal.num 0 = EVal.num 0 := by
  constructor
  · exact (transform_no_nan_bounded_const_zero [.num 3, .nan, .inf]).1
      (EVal.num 1)
      (by norm_num [transformColumn, minmaxNormalize, colMin, colMax, cleanVal])
  · exact (transform_no_nan_bounded_const_zero [.inf, .inf]).2
      ⟨.inf, by decide⟩ (EVal.num 0)
      (by norm_num [transformColumn, minmaxNormalize, colMin, colMax, cleanVal])

/-- C2: under majority voting the ensemble prediction of each sample is the
per-sample mode of the `*_prediction` columns (an entry of the row of
maximal multiplicity); in particular predictions [+1,+1,−1] across three
detectors give +1 (normal) and [−1,−1,+1] give −1 (anomaly). -/
theorem ensemble_voting_is_rowwise_mode (cfg : EnsembleConfig) (res : ResultsFrame)
    (hm : cfg.method = "voting") (i : ℕ) (hi : i < res.nRows)
    (hne : colsEndingWith res "_prediction" ≠ []) :
    ((ensemblePredict cfg res).getD i 0 ∈ rowAt (colsEndingWith res "_prediction") i ∧
      ∀ v : ℚ, (rowAt (colsEndingWith res "_prediction") i).count v ≤
        (rowAt (colsEndingWith res "_prediction") i).count
          ((ensemblePredict cfg res).getD i 0)) ∧
    ensemblePredict ⟨true, "voting", []⟩
      ⟨1, [("a_prediction", [1]), ("b_prediction", [1]), ("c_prediction", [-1])]⟩ = [1] ∧
    ensemblePredict ⟨true, "voting", []⟩
      ⟨1, [("a_prediction", [-1]), ("b_prediction", [-1]), ("c_prediction", [1])]⟩ = [-1] := by
  refine ⟨?_, by decide, by decide⟩
  have hrow : rowAt (colsEndingWith res "_prediction") i ≠ [] := by
    simpa [rowAt] using hne
  have heq : (ensemblePredict cfg res).getD i 0 =
      rowMode (rowAt (colsEndingWith res "_prediction") i) := by
    rw [ensemblePredict_voting_eq cfg res (by rw [hm]; decide) hne]
    exact getD_map_range _ _ _ _ hi
  rw [heq]
  exact rowMode_mem_and_maximal _ hrow

/-- Witness for C2: three detectors voting [+1, +1, −1] on one sample. -/
theorem ensemble_voting_is_rowwise_mode_witness :
    ((ensemblePredict ⟨true, "voting", []⟩
        ⟨1, [("a_prediction", [1]), ("b_prediction", [1]), ("c_prediction", [-1])]⟩).getD 0 0 ∈
      rowAt (colsEndingWith
        ⟨1, [("a_prediction", [1]), ("b_prediction", [1]), ("c_prediction", [-1])]⟩
        "_prediction") 0 ∧
      ∀ v : ℚ, (rowAt (colsEndingWith
        ⟨1, [("a_prediction", [1]), ("b_prediction", [1]), ("c_prediction", [-1])]⟩
        "_prediction") 0).count v ≤
        (rowAt (colsEndingWith
          ⟨1, [("a_prediction", [1]), ("b_prediction", [1]), ("c_prediction", [-1])]⟩
          "_prediction") 0).count
          ((ensemblePredict ⟨true, "voting", []⟩
            ⟨1, [("a_prediction", [1]), ("b_prediction", [1]), ("c_prediction", [-1])]⟩).getD 0 0)) ∧
    ensemblePredict ⟨true, "voting", []⟩
      ⟨1, [("a_prediction", [1]), ("b_prediction", [1]), ("c_prediction", [-1])]⟩ = [1] ∧
    ensemblePredict ⟨true, "voting", []⟩
      ⟨1, [("a_prediction", [-1]), ("b_prediction", [-1]), ("c_prediction", [1])]⟩ = [-1] :=
  ensemble_voting_is_rowwise_mode ⟨true, "voting", []⟩
    ⟨1, [("a_prediction", [1]), ("b_prediction", [1]), ("c_prediction", [-1])]⟩
    rfl 0 (by decide) (by decide)

/-- C3: under weighted voting the ensemble prediction of every sample is
the sign test of the weighted sum of raw {−1,+1} predictions divided by
the total weight (weights read from configuration, default 1.0): result
< 0 gives −1, otherwise +1; in particular predictions [+1,−1] with weights
[1,3] average to −0.5 and yield −1. -/
theorem ensemble_weighted_sign_test (cfg : EnsembleConfig) (res : ResultsFrame)
    (hm : cfg.method = "weighted") (i : ℕ) (hi : i < res.nRows)
    (hne : colsEndingWith res "_prediction" ≠ []) :
    (ensemblePredict cfg res).getD i 0 =
      weightedVoteRuleSpec ((colsEndingWith res "_prediction").map
        (fun c => (weightOf cfg.weights (strReplace c.1 "_prediction"), c.2.getD i 0))) ∧
    ensemblePredict ⟨true, "weighted", [("a", 1), ("b", 3)]⟩
      ⟨1, [("a_prediction", [1]), ("b_prediction", [-1])]⟩ = [-1] := by
  constructor
  · rw [ensemblePredict_weighted_eq cfg res hm hne, getD_map_range _ _ _ _ hi]
    unfold weightedVoteRuleSpec
    rw [List.map_map, List.map_map]
    have h1 : (colsEndingWith res "_prediction").map
        ((fun wp : ℚ × ℚ => wp.1 * wp.2) ∘
          (fun c => (weightOf cfg.weights (strReplace c.1 "_prediction"), c.2.getD i 0))) =
        (colsEndingWith res "_prediction").map
          (fun c => c.2.getD i 0 * weightOf cfg.weights (strReplace c.1 "_prediction")) := by
      apply List.map_congr_left
      intro c _
      exact mul_comm _ _
    have h2 : (colsEndingWith res "_prediction").map
        ((fun wp : ℚ × ℚ => wp.1) ∘
          (fun c => (weightOf cfg.weights (strReplace c.1 "_prediction"), c.2.getD i 0))) =
        (colsEndingWith res "_prediction").map
          (fun c => weightOf cfg.weights (strReplace c.1 "_prediction")) := by
      apply List.map_congr_left
      intro c _
      rfl
    rw [h1, h2]
  · have hcols : colsEndingWith
        ⟨1, [("a_prediction", [1]), ("b_prediction", [-1])]⟩ "_prediction" =
        [("a_prediction", [1]), ("b_prediction", [-1])] := by decide
    rw [ensemblePredict_weighted_eq _ _ rfl (by decide), hcols]
    have hw1 : weightOf [("a", 1), ("b", 3)] (strReplace "a_prediction" "_prediction") = 1 := by
      decide
    have hw3 : weightOf [("a", 1), ("b", 3)] (strReplace "b_prediction" "_prediction") = 3 := by
      decide
    simp only [List.map_cons, List.map_nil, List.sum_cons, List.sum_nil, hw1, hw3]
    norm_num [List.range_succ]

/-- Witness for C3: two detectors predicting [+1, −1] with weights [1, 3]. -/
theorem ensemble_weighted_sign_test_witness :
    (ensemblePredict ⟨true, "weighted", [("a", 1), ("b", 3)]⟩
        ⟨1, [("a_prediction", [1]), ("b_prediction", [-1])]⟩).getD 0 0 =
      weightedVoteRuleSpec ((colsEndingWith
        ⟨1, [("a_prediction", [1]), ("b_prediction", [-1])]⟩ "_prediction").map
        (fun c => (weightOf [("a", 1), ("b", 3)] (strReplace c.1 "_prediction"),
          c.2.getD 0 0))) ∧
    ensemblePredict ⟨true, "weighted", [("a", 1), ("b", 3)]⟩
      ⟨1, [("a_prediction", [1]), ("b_prediction", [-1])]⟩ = [-1] :=
  ensemble_weighted_sign_test ⟨true, "weighted", [("a", 1), ("b", 3)]⟩
    ⟨1, [("a_prediction", [1]), ("b_prediction", [-1])]⟩
    rfl 0 (by decide) (by decide)

/-- C4 helper: reading any position of a min-max-normalized column (with
the default 0 used for out-of-range reads) stays within [0, 1]. -/
theorem minmaxNormalize_getD_bounds (xs : List ℚ) (i : ℕ) :
    0 ≤ (minmaxNormalize xs).getD i 0 ∧ (minmaxNormalize xs).getD i 0 ≤ 1 := by
  by_cases h : i < (minmaxNormalize xs).length
  · have hmem : (minmaxNormalize xs).getD i 0 ∈ minmaxNormalize xs := by
      rw [List.getD_eq_getElem?_getD, List.getElem?_eq_getElem h]
      exact List.getElem_mem h
    exact minmaxNormalize_bounds xs _ hmem
  · rw [List.getD_eq_getElem?_getD, List.getElem?_eq_none (by omega)]
    norm_num

/-- C4: the ensemble score of every sample lies in [0, 1] whenever at least
one detector contributed a score column (each `*_score` column is min-max
normalized and the ensemble score is the mean of the normalized columns);
with zero contributing detectors every sample's ensemble score is 0 and its
`is_anomaly` flag is `False`. -/
theorem ensemble_score_bounds_and_no_detectors (res : ResultsFrame)
    (cfg : EnsembleConfig) (models : List DetModel) (n : ℕ) :
    (colsEndingWith res "_score" ≠ [] → ∀ s ∈ ensembleScore res, 0 ≤ s ∧ s ≤ 1) ∧
    (cfg.enabled = true → (∀ m ∈ models, m.predictRes = none) →
      ∃ r, detect cfg models n = .ok r ∧ r.is_anomaly = List.replicate n false ∧
        lookupCol r.cols "ensemble_score" = some (List.replicate n 0)) := by
  constructor
  · intro hne s hs
    have h1 : ¬ ((colsEndingWith res "_score").isEmpty = true) := by
      simpa [List.isEmpty_iff] using hne
    unfold ensembleScore at hs
    rw [if_neg h1] at hs
    rcases List.mem_map.mp hs with ⟨i, _, rfl⟩
    have hlen : 0 < ((colsEndingWith res "_score").map (fun c => minmaxNormalize c.2)).length := by
      rw [List.length_map]
      exact List.length_pos.mpr hne
    set normalized := (colsEndingWith res "_score").map (fun c => minmaxNormalize c.2) with hn
    have hvals : ∀ x ∈ normalized.map (fun c => c.getD i 0), 0 ≤ x ∧ x ≤ 1 := by
      intro x hx
      rcases List.mem_map.mp hx with ⟨c, hc, rfl⟩
      rcases List.mem_map.mp hc with ⟨col, _, rfl⟩
      exact minmaxNormalize_getD_bounds col.2 i
    have hsum0 : 0 ≤ (normalized.map (fun c => c.getD i 0)).sum :=
      List.sum_nonneg (fun x hx => (hvals x hx).1)
    have hsum1 : (normalized.map (fun c => c.getD i 0)).sum ≤ (normalized.length : ℚ) := by
      have := List.sum_le_card_nsmul (normalized.map (fun c => c.getD i 0)) 1
        (fun x hx => (hvals x hx).2)
      rw [List.length_map] at this
      simpa [nsmul_eq_mul] using this
    have hpos : (0 : ℚ) < (normalized.length : ℚ) := by
      exact_mod_cast hlen
    constructor
    · exact div_nonneg hsum0 (le_of_lt hpos)
    · exact (div_le_one hpos).mpr hsum1
  · intro hen hall
    have hflat : flatCols models = [] := by
      rw [flatCols, List.flatten_eq_nil_iff]
      intro l hl
      rcases List.mem_map.mp hl with ⟨m, hm, rfl⟩
      rw [runModel, hall m hm]
    have hpred : ensemblePredict cfg ⟨n, []⟩ = List.replicate n 1 := by
      simp [ensemblePredict, colsEndingWith]
    have hs : strEndsWith "ensemble_prediction" "_score" = false := by decide
    have hscore : ensembleScore ⟨n, [("ensemble_prediction", List.replicate n 1)]⟩ =
        List.replicate n 0 := by
      simp [ensembleScore, colsEndingWith, hs]
    refine ⟨⟨[("ensemble_prediction", List.replicate n 1),
      ("ensemble_score", List.replicate n 0)], List.replicate n false⟩, ?_, rfl, ?_⟩
    · have hmap : (List.replicate n (1 : ℚ)).map (fun v => decide (v = -1)) =
          List.replicate n false := by
        rw [List.map_replicate]
        norm_num
      simp [detect, detectAssembled, detectCols2, detectCols1, hflat, hen, hpred,
        hscore, lookupCol, hmap]
    · simp [lookupCol]

/-- Witness for C4 at a frame with one score column [2, 4] (normalized to
[0, 1], ensemble scores in bounds) and a detector registry whose single
model raises in `predict`. -/
theorem ensemble_score_bounds_and_no_detectors_witness :
    ((1 : ℚ) / 2 ≤ 1) ∧
    (∃ r, detect ⟨true, "voting", []⟩ [⟨"a", none, .absent⟩] 2 = .ok r ∧
      r.is_anomaly = List.replicate 2 false ∧
      lookupCol r.cols "ensemble_score" = some (List.replicate 2 0)) := by
  constructor
  · norm_num
  · exact (ensemble_score_bounds_and_no_detectors ⟨1, []⟩ ⟨true, "voting", []⟩
      [⟨"a", none, .absent⟩] 2).2 rfl (by intro m hm; fin_cases hm; rfl)

/-- C9: under majority voting, a sample whose votes split evenly between
−1 and +1 receives the ensemble prediction −1 (anomaly), because the mode
lists candidates in ascending order and the first is taken. -/
theorem ensemble_voting_tie_resolves_to_anomaly (cfg : EnsembleConfig)
    (res : ResultsFrame) (hm : cfg.method = "voting") (i : ℕ) (hi : i < res.nRows)
    (hne : colsEndingWith res "_prediction" ≠ [])
    (hpm : ∀ v ∈ rowAt (colsEndingWith res "_prediction") i, v = -1 ∨ v = 1)
    (heq : (rowAt (colsEndingWith res "_prediction") i).count (-1) =
      (rowAt (colsEndingWith res "_prediction") i).count 1) :
    (ensemblePredict cfg res).getD i 0 = -1 := by
  have hrow : rowAt (colsEndingWith res "_prediction") i ≠ [] := by
    simpa [rowAt] using hne
  rw [ensemblePredict_voting_eq cfg res (by rw [hm]; decide) hne,
    getD_map_range _ _ _ _ hi]
  exact rowMode_tie _ hrow hpm heq

/-- Witness for C9: two detectors voting [+1, −1] on one sample. -/
theorem ensemble_voting_tie_resolves_to_anomaly_witness :
    (ensemblePredict ⟨true, "voting", []⟩
      ⟨1, [("a_prediction", [1]), ("b_prediction", [-1])]⟩).getD 0 0 = -1 :=
  ensemble_voting_tie_resolves_to_anomaly ⟨true, "voting", []⟩
    ⟨1, [("a_prediction", [1]), ("b_prediction", [-1])]⟩
    rfl 0 (by decide) (by decide) (by decide) (by decide)

/-- C5 counterexample: the claim asserts that a detector whose scoring
raises contributes NO columns at all.  In the code the prediction column is
assigned before the scoring call inside the same `try`, so when only
scoring raises the `{name}_prediction` column stays.  Concretely, with
detector `a` predicting successfully but raising in `score_samples`,
`a_prediction` is present in the result (only `a_score` is absent). -/
theorem detect_scoring_failure_keeps_prediction_column :
    detect ⟨true, "voting", []⟩
        [⟨"a", some [1], .raises⟩, ⟨"b", some [1], .absent⟩] 1 =
      .ok ⟨[("a_prediction", [1]), ("b_prediction", [1]),
        ("ensemble_prediction", [1]), ("ensemble_score", [0])], [false]⟩ ∧
    "a_prediction" ∈ ([("a_prediction", [1]), ("b_prediction", [1]),
      ("ensemble_prediction", [1]), ("ensemble_score", [0])] :
        List (String × Column)).map Prod.fst ∧
    "a_score" ∉ ([("a_prediction", [1]), ("b_prediction", [1]),
      ("ensemble_prediction", [1]), ("ensemble_score", [0])] :
        List (String × Column)).map Prod.fst := by
  refine ⟨?_, by decide, by decide⟩
  rfl

/-- C5 (amended): if a registered detector's `predict` raises during
`detect` while the others succeed, `detect` still returns a verdict row for
every input sample computed from the remaining detectors, and the failing
detector contributes no columns (neither `{name}_prediction` nor
`{name}_score`); if instead only its scoring method raises, the
`{name}_score` column is absent but the already-assigned
`{name}_prediction` column remains present. -/
theorem detect_isolates_failing_detector (cfg : EnsembleConfig)
    (models : List DetModel) (n : ℕ) (f : DetModel) (hf : f ∈ models)
    (hen : cfg.enabled = true) (hnodup : (models.map DetModel.name).Nodup)
    (hname : ∀ m ∈ models, m.name ≠ "ensemble") :
    ∃ r, detect cfg models n = .ok r ∧ r.is_anomaly.length = n ∧
      (∀ m ∈ models, ∀ p, m.predictRes = some p →
        m.name ++ "_prediction" ∈ r.cols.map Prod.fst) ∧
      (f.predictRes = none →
        f.name ++ "_prediction" ∉ r.cols.map Prod.fst ∧
        f.name ++ "_score" ∉ r.cols.map Prod.fst) ∧
      (f.scoreRes = .raises → f.name ++ "_score" ∉ r.cols.map Prod.fst) := by
  refine ⟨_, detect_enabled_eq cfg models n hen hname, ?_, ?_, ?_, ?_⟩
  · rw [List.length_map, ensemblePredict_length]
  · intro m hm p hp
    rw [detectCols2_names]
    apply List.mem_append_left
    apply (mem_flatCols_names_iff models _).mpr
    refine ⟨m, hm, ?_⟩
    rw [runModel, hp]
    rcases m.scoreRes with _ | s | _ <;> simp
  · intro hpn
    have hself : ∀ suffix : String, f.name ++ suffix ∉ (runModel f).map Prod.fst := by
      intro suffix
      rw [runModel, hpn]
      exact List.not_mem_nil _
    have hfe : f.name ≠ "ensemble" := hname f hf
    constructor
    · rw [detectCols2_names]
      intro h
      rcases List.mem_append.mp h with h | h
      · exact fname_col_not_in_flat models f hnodup hf "_prediction"
          (Or.inl rfl) (hself _) h
      · rcases List.mem_cons.mp h with h2 | h2
        · exact hfe (string_append_right_cancel (by rw [h2]; decide))
        · have h3 := List.mem_singleton.mp h2
          have h4 : "ensemble" ++ "_score" = f.name ++ "_prediction" := by
            rw [h3]
            decide
          exact score_append_ne_prediction_append "ensemble" f.name h4
    · rw [detectCols2_names]
      intro h
      rcases List.mem_append.mp h with h | h
      · exact fname_col_not_in_flat models f hnodup hf "_score"
          (Or.inr rfl) (hself _) h
      · rcases List.mem_cons.mp h with h2 | h2
        · exact score_append_ne_prediction_append f.name "ensemble"
            (by rw [h2]; decide)
        · have h3 := List.mem_singleton.mp h2
          exact hfe (string_append_right_cancel (by rw [h3]; decide))
  · intro hsr
    have hself : f.name ++ "_score" ∉ (runModel f).map Prod.fst := by
      rw [runModel]
      rcases hpf : f.predictRes with _ | p
      · exact List.not_mem_nil _
      · rw [hsr]
        intro h
        have h2 := List.mem_singleton.mp h
        exact score_append_ne_prediction_append f.name f.name h2
    have hfe : f.name ≠ "ensemble" := hname f hf
    rw [detectCols2_names]
    intro h
    rcases List.mem_append.mp h with h | h
    · exact fname_col_not_in_flat models f hnodup hf "_score"
        (Or.inr rfl) hself h
    · rcases List.mem_cons.mp h with h2 | h2
      · exact score_append_ne_prediction_append f.name "ensemble"
          (by rw [h2]; decide)
      · have h3 := List.mem_singleton.mp h2
        exact hfe (string_append_right_cancel (by rw [h3]; decide))

/-- Witness for C5 (amended): detector `a` raises in `predict`, detector
`b` succeeds, one input row. -/
theorem detect_isolates_failing_detector_witness :
    ∃ r, detect ⟨true, "voting", []⟩
        [⟨"a", none, .absent⟩, ⟨"b", some [1], .ok [0]⟩] 1 = .ok r ∧
      r.is_anomaly.length = 1 ∧
      (∀ m ∈ ([⟨"a", none, .absent⟩, ⟨"b", some [1], .ok [0]⟩] : List DetModel),
        ∀ p, m.predictRes = some p →
          m.name ++ "_prediction" ∈ r.cols.map Prod.fst) ∧
      ((⟨"a", none, .absent⟩ : DetModel).predictRes = none →
        "a" ++ "_prediction" ∉ r.cols.map Prod.fst ∧
        "a" ++ "_score" ∉ r.cols.map Prod.fst) ∧
      ((⟨"a", none, .absent⟩ : DetModel).scoreRes = .raises →
        "a" ++ "_score" ∉ r.cols.map Prod.fst) := by
  refine detect_isolates_failing_detector ⟨true, "voting", []⟩
    [⟨"a", none, .absent⟩, ⟨"b", some [1], .ok [0]⟩] 1 ⟨"a", none, .absent⟩
    ?_ rfl ?_ ?_ <;> decide

/-- C10: when the configuration disables the ensemble step, `detect`
raises a missing-column `KeyError`: `is_anomaly` is computed
unconditionally from the `ensemble_prediction` column, which is only
created when the ensemble step runs (assuming, as the registry naming
scheme intends, that no detector is itself named `ensemble`). -/
theorem detect_raises_when_ensemble_disabled (cfg : EnsembleConfig)
    (models : List DetModel) (n : ℕ) (hdis : cfg.enabled = false)
    (hname : ∀ m ∈ models, m.name ≠ "ensemble") :
    detect cfg models n = .error "KeyError: ensemble_prediction" := by
  have hasm : detectAssembled cfg models n = flatCols models := by
    simp [detectAssembled, hdis]
  have hnone : lookupCol (flatCols models) "ensemble_prediction" = none :=
    lookupCol_eq_none _ _ (flat_no_ensemble_prediction models hname)
  unfold detect
  rw [hasm, hnone]

/-- Witness for C10: one healthy detector, ensemble disabled. -/
theorem detect_raises_when_ensemble_disabled_witness :
    detect ⟨false, "voting", []⟩ [⟨"a", some [1], .absent⟩] 1 =
      .error "KeyError: ensemble_prediction" :=
  detect_raises_when_ensemble_disabled ⟨false, "voting", []⟩
    [⟨"a", some [1], .absent⟩] 1 rfl (by decide)

/-- C6 (code-bug evidence): for sequence length k = 10 (the default) and an
input of n = 2 rows, `LSTMDetector.predict` does NOT return 2 padded
"normal" predictions as the claim states: `score_samples` returns
`np.zeros(2)` (one zero per input row) while the slice `predictions[10:]`
is empty, and a shape-(2,) array cannot be broadcast into shape (0,), so
the numpy assignment raises a `ValueError`.  The neighbouring cases behave
as claimed: for n = 1 the shape-(1,) zeros broadcast into the empty slice
as a no-op and predict returns `np.ones(1)`, and for n = 12 > k predict
returns 12 predictions, the first 10 forced to +1 and the rest
thresholded. -/
theorem lstm_predict_raises_below_sequence_length :
    (LSTMDetector.mk 10 0 (fun _ => 0)).predict 2 =
      .error "ValueError: could not broadcast input array" ∧
    (LSTMDetector.mk 10 0 (fun _ => 0)).predict 1 = .ok [1] ∧
    (LSTMDetector.mk 10 0 (fun _ => 0)).predict 12 =
      .ok (List.replicate 10 1 ++ [1, 1]) := by
  refine ⟨rfl, rfl, rfl⟩

/-- C8: `train_all_models` trains every configured detector independently:
a detector whose training raises is skipped, the others are unaffected, and
the returned name → model mapping holds exactly the successes (an entry
exists for a name iff it is enabled and its training succeeded; a failed
name is absent). -/
theorem train_all_models_partial_success {α : Type} (t : ModelTrainer α) :
    (∀ name : String, ∀ m : α,
      ((name, m) ∈ t.train_all_models ↔
        name ∈ t.enabled_models ∧ t.trainOutcome name = some m)) ∧
    (∀ name ∈ t.enabled_models, t.trainOutcome name = none →
      name ∉ t.train_all_models.map Prod.fst) := by
  have key : ∀ name : String, ∀ m : α,
      ((name, m) ∈ t.train_all_models ↔
        name ∈ t.enabled_models ∧ t.trainOutcome name = some m) := by
    intro name m
    rw [ModelTrainer.train_all_models, List.mem_filterMap]
    constructor
    · rintro ⟨a, ha, he⟩
      rcases ho : t.trainOutcome a with _ | v
      · rw [ho] at he
        exact absurd he (by simp)
      · rw [ho] at he
        have he2 : (a, v) = (name, m) := by simpa using he
        cases he2
        exact ⟨ha, ho⟩
    · rintro ⟨hn, ho⟩
      exact ⟨name, hn, by rw [ho]; rfl⟩
  refine ⟨key, ?_⟩
  intro name hn ho h
  rcases List.mem_map.mp h with ⟨⟨a, m⟩, ham, he⟩
  rcases (key a m).mp ham with ⟨_, hsome⟩
  rw [show a = name from he] at hsome
  rw [ho] at hsome
  exact absurd hsome (by simp)

/-- Witness for C8: three enabled detectors of which `b` fails to train;
the mapping holds `a` and lacks `b`. -/
theorem train_all_models_partial_success_witness :
    (("a", (1 : ℕ)) ∈ (ModelTrainer.mk ["a", "b", "c"]
        (fun s => if s = "a" then some 1 else if s = "c" then some 2
          else none)).train_all_models ↔
      "a" ∈ ["a", "b", "c"] ∧
      (if "a" = "a" then some 1 else if "a" = "c" then some 2
        else (none : Option ℕ)) = some 1) ∧
    "b" ∉ ((ModelTrainer.mk ["a", "b", "c"]
      (fun s => if s = "a" then some 1 else if s = "c" then some 2
        else none)).train_all_models).map Prod.fst :=
  ⟨(train_all_models_partial_success (ModelTrainer.mk ["a", "b", "c"]
      (fun s => if s = "a" then some 1 else if s = "c" then some 2
        else none))).1 "a" 1,
   (train_all_models_partial_success (ModelTrainer.mk ["a", "b", "c"]
      (fun s => if s = "a" then some 1 else if s = "c" then some 2
        else none))).2 "b" (by decide) (by decide)⟩

/-! ## Lemmas about the feature extractors -/

theorem mem_if_list {α : Type} {P : Prop} [Decidable P] {l : List α} {c : α}
    (h : c ∈ (if P then l else [])) : c ∈ l := by
  by_cases hp : P
  · rwa [if_pos hp] at h
  · rw [if_neg hp] at h
    exact absurd h (List.not_mem_nil c)

theorem transformCount_length (keys : List String) :
    (transformCount keys).length = keys.length :=
  List.length_map keys _

theorem transformNunique_length (keys vals : List String) :
    (transformNunique keys vals).length = keys.length := by
  rw [transformNunique, List.length_map, List.length_range]

theorem getD_replicate_zero (n i : ℕ) : (List.replicate n (0 : ℚ)).getD i 0 = 0 := by
  rcases Nat.lt_or_ge i n with h | h
  · rw [List.getD_eq_getElem?_getD, List.getElem?_eq_getElem (by simpa using h)]
    simp [List.getElem_replicate]
  · rw [List.getD_eq_getElem?_getD, List.getElem?_eq_none (by simpa using h)]
    rfl

/-- Reading a list of length `n` back index by index reproduces it. -/
theorem map_getD_range {α : Type} (l : List α) (d : α) :
    (List.range l.length).map (fun i => l.getD i d) = l := by
  apply List.ext_getElem
  · rw [List.length_map, List.length_range]
  · intro i h1 h2
    rw [List.getElem_map, List.getElem_range,
      List.getD_eq_getElem?_getD, List.getElem?_eq_getElem h2]
    rfl

theorem failed_login_count_length (t : EventTable) :
    (failed_login_count t).length = t.n := by
  unfold failed_login_count
  rcases t.action with _ | acts <;> rcases t.status_code with _ | stats <;>
    try simp
  rcases t.session_id with _ | sids <;> simp

theorem privilege_escalation_attempts_length (t : EventTable) :
    (privilege_escalation_attempts t).length = t.n := by
  unfold privilege_escalation_attempts
  rcases t.action with _ | acts
  · simp
  · rcases t.session_id with _ | sids <;> simp

theorem unique_resources_accessed_length (t : EventTable) (hwf : t.WF) :
    (unique_resources_accessed t).length = t.n := by
  unfold unique_resources_accessed
  rcases hr : t.resource with _ | ress <;> rcases hs : t.session_id with _ | sids <;>
    try simp
  rw [transformNunique_length]
  exact hwf.1 sids hs

theorem session_duration_length (t : EventTable) :
    (session_duration t).length = t.n := by
  unfold session_duration
  rcases t.timestamp with _ | ts <;> rcases t.session_id with _ | sids <;> simp

theorem action_frequency_length (t : EventTable) :
    (action_frequency t).length = t.n := by
  unfold action_frequency
  rcases t.session_id with _ | sids <;> simp

theorem bytes_transferred_feature_length (t : EventTable) (hwf : t.WF) :
    (bytes_transferred_feature t).length = t.n := by
  unfold bytes_transferred_feature
  rcases hb : t.bytes_transferred with _ | bs
  · simp
  · exact hwf.2.2.2.2.2.1 bs hb

theorem connection_count_length (t : EventTable) (hwf : t.WF) :
    (connection_count t).length = t.n := by
  unfold connection_count
  rcases hs : t.session_id with _ | sids
  · simp
  · rw [transformCount_length]
    exact hwf.1 sids hs

theorem unique_destinations_length (t : EventTable) (hwf : t.WF) :
    (unique_destinations t).length = t.n := by
  unfold unique_destinations
  rcases hs : t.session_id with _ | sids
  · simp
  · have hlen : sids.length = t.n := hwf.1 sids hs
    rcases t.destination_ip with _ | dips
    · rcases t.resource with _ | ress
      · simp
      · rw [transformNunique_length]
        exact hlen
    · rw [transformNunique_length]
      exact hlen

theorem port_scan_score_length (t : EventTable) :
    (port_scan_score t).length = t.n := by
  unfold port_scan_score
  rcases t.session_id with _ | sids <;> simp

theorem lateral_movement_score_length (t : EventTable) :
    (lateral_movement_score t).length = t.n := by
  unfold lateral_movement_score
  rcases t.session_id with _ | sids <;> simp

theorem groupDiff_length (keys : List String) (ts : List ℚ) :
    (groupDiff keys ts).length = ts.length := by
  rw [groupDiff, List.length_map, List.length_range]

theorem globalDiff_length (ts : List ℚ) : (globalDiff ts).length = ts.length := by
  rw [globalDiff, List.length_map, List.length_range]

theorem time_since_last_action_length (t : EventTable) (ts : List ℚ) :
    (time_since_last_action t ts).length = ts.length := by
  unfold time_since_last_action
  rcases t.session_id with _ | sids
  · rcases t.user_id with _ | uids
    · exact globalDiff_length ts
    · exact groupDiff_length uids ts
  · exact groupDiff_length sids ts

theorem action_velocity_length (t : EventTable) (ts : List ℚ) :
    (action_velocity t ts).length = t.n := by
  unfold action_velocity
  rcases t.session_id with _ | sids <;> simp

/-- Every column produced by the behavioral extractor has one value per
input row, whatever columns the table is missing. -/
theorem behavioralExtract_cols_length (feats : List String) (t : EventTable)
    (hwf : t.WF) : ∀ c ∈ behavioralExtract feats t, c.2.length = t.n := by
  intro c hc
  unfold behavioralExtract at hc
  simp only [List.append_assoc, List.mem_append] at hc
  rcases hc with h | h | h | h | h
  · rcases List.mem_singleton.mp (mem_if_list h) with rfl
    exact failed_login_count_length t
  · rcases List.mem_singleton.mp (mem_if_list h) with rfl
    exact privilege_escalation_attempts_length t
  · rcases List.mem_singleton.mp (mem_if_list h) with rfl
    exact unique_resources_accessed_length t hwf
  · rcases List.mem_singleton.mp (mem_if_list h) with rfl
    exact session_duration_length t
  · rcases List.mem_singleton.mp (mem_if_list h) with rfl
    exact action_frequency_length t

/-- Every column produced by the network extractor has one value per input
row, whatever columns the table is missing. -/
theorem networkExtract_cols_length (cfg : NetworkConfig) (t : EventTable)
    (hwf : t.WF) : ∀ c ∈ networkExtract cfg t, c.2.length = t.n := by
  intro c hc
  unfold networkExtract at hc
  simp only [List.append_assoc, List.mem_append] at hc
  rcases hc with h | h | h | h | h
  · rcases List.mem_cons.mp (mem_if_list h) with rfl | h2
    · exact bytes_transferred_feature_length t hwf
    · rcases List.mem_singleton.mp h2 with rfl
      rw [List.length_map]
      exact bytes_transferred_feature_length t hwf
  · rcases List.mem_singleton.mp (mem_if_list h) with rfl
    exact connection_count_length t hwf
  · rcases List.mem_singleton.mp (mem_if_list h) with rfl
    exact unique_destinations_length t hwf
  · rcases List.mem_singleton.mp (mem_if_list h) with rfl
    exact port_scan_score_length t
  · rcases List.mem_singleton.mp (mem_if_list h) with rfl
    exact lateral_movement_score_length t

/-- Every column produced by the temporal extractor has one value per input
row, whatever columns the table is missing. -/
theorem temporalExtract_cols_length (cfg : TemporalConfig) (t : EventTable)
    (hwf : t.WF) : ∀ c ∈ temporalExtract cfg t, c.2.length = t.n := by
  intro c hc
  unfold temporalExtract at hc
  rcases hts : t.timestamp with _ | ts
  · rw [hts] at hc
    exact absurd hc (List.not_mem_nil c)
  · rw [hts] at hc
    have hlen : ts.length = t.n := hwf.2.2.2.2.2.2.1 ts hts
    simp only [List.append_assoc, List.mem_append] at hc
    rcases hc with h | h | h | h | h
    · rcases List.mem_cons.mp (mem_if_list h) with rfl | h2
      · rw [List.length_map]; exact hlen
      · rcases List.mem_cons.mp h2 with rfl | h3
        · rw [List.length_map]; exact hlen
        · rcases List.mem_singleton.mp h3 with rfl
          rw [List.length_map]; exact hlen
    · rcases List.mem_cons.mp (mem_if_list h) with rfl | h2
      · rw [List.length_map]; exact hlen
      · rcases List.mem_cons.mp h2 with rfl | h3
        · rw [List.length_map]; exact hlen
        · rcases List.mem_singleton.mp h3 with rfl
          rw [List.length_map]; exact hlen
    · rcases List.mem_singleton.mp (mem_if_list h) with rfl
      rw [is_business_hours, List.length_map]; exact hlen
    · rcases List.mem_singleton.mp (mem_if_list h) with rfl
      rw [time_since_last_action_length]; exact hlen
    · rcases List.mem_singleton.mp (mem_if_list h) with rfl
      exact action_velocity_length t ts

/-- C7 counterexample: the claim says every feature depending on an absent
column degrades to a column of ZEROS.  `NetworkFeatures._connection_count`
(and `_unique_destinations`) instead fall back to `pd.Series(1, …)`: on a
2-row table without a `session_id` column the connection count is the
constant-1 column, not the constant-0 column. -/
theorem connection_count_missing_session_is_ones :
    connection_count ⟨2, none, none, none, none, none, none, none, none, none⟩ =
      [1, 1] ∧
    connection_count ⟨2, none, none, none, none, none, none, none, none, none⟩ ≠
      List.replicate 2 0 := by
  constructor
  · decide
  · decide

/-- C7 (amended): a missing input column never makes extraction fail — every
enabled feature still yields one value per row.  Features degrade per the
code's fallbacks: zeros for most features, but ONES for connection count and
unique destinations; per-row 0/1 indicators for the failed-login and
escalation counts when only `session_id` is missing; the per-session action
count for action frequency when only `timestamp` is missing; composite
indicator scores drop exactly the indicators whose columns are missing (all
zero when all are); and the temporal extractor omits all its features when
`timestamp` is absent. -/
theorem extractors_soft_degradation (t : EventTable) (hwf : t.WF)
    (bfeats : List String) (ncfg : NetworkConfig) (tcfg : TemporalConfig) :
    (∀ c ∈ behavioralExtract bfeats t, c.2.length = t.n) ∧
    (∀ c ∈ networkExtract ncfg t, c.2.length = t.n) ∧
    (∀ c ∈ temporalExtract tcfg t, c.2.length = t.n) ∧
    (t.action = none → failed_login_count t = List.replicate t.n 0 ∧
      privilege_escalation_attempts t = List.replicate t.n 0) ∧
    (t.status_code = none → failed_login_count t = List.replicate t.n 0) ∧
    (t.resource = none → unique_resources_accessed t = List.replicate t.n 0) ∧
    (t.session_id = none →
      unique_resources_accessed t = List.replicate t.n 0 ∧
      session_duration t = List.replicate t.n 0 ∧
      action_frequency t = List.replicate t.n 0 ∧
      connection_count t = List.replicate t.n 1 ∧
      unique_destinations t = List.replicate t.n 1 ∧
      port_scan_score t = List.replicate t.n 0 ∧
      lateral_movement_score t = List.replicate t.n 0 ∧
      (∀ ts, action_velocity t ts = List.replicate t.n 0) ∧
      (∀ v ∈ failed_login_count t, v = 0 ∨ v = 1) ∧
      (∀ v ∈ privilege_escalation_attempts t, v = 0 ∨ v = 1)) ∧
    (t.timestamp = none →
      session_duration t = List.replicate t.n 0 ∧
      temporalExtract tcfg t = [] ∧
      (∀ sids, t.session_id = some sids → action_frequency t = transformCount sids)) ∧
    (t.bytes_transferred = none →
      bytes_transferred_feature t = List.replicate t.n 0) ∧
    (t.destination_ip = none → t.timestamp = none → t.status_code = none →
      port_scan_score t = List.replicate t.n 0) ∧
    (t.resource = none → t.action = none → t.source_ip = none →
      lateral_movement_score t = List.replicate t.n 0) := by
  refine ⟨behavioralExtract_cols_length _ _ hwf, networkExtract_cols_length _ _ hwf,
    temporalExtract_cols_length _ _ hwf, ?_, ?_, ?_, ?_, ?_, ?_, ?_, ?_⟩
  · intro ha
    constructor
    · simp [failed_login_count, ha]
    · simp [privilege_escalation_attempts, ha]
  · intro hsc
    rcases ha : t.action with _ | acts <;> simp [failed_login_count, ha, hsc]
  · intro hr
    simp [unique_resources_accessed, hr]
  · intro hs
    refine ⟨?_, ?_, ?_, ?_, ?_, ?_, ?_, ?_, ?_, ?_⟩
    · rcases hr : t.resource with _ | ress <;> simp [unique_resources_accessed, hr, hs]
    · rcases ht : t.timestamp with _ | ts <;> simp [session_duration, ht, hs]
    · simp [action_frequency, hs]
    · simp [connection_count, hs]
    · simp [unique_destinations, hs]
    · simp [port_scan_score, hs]
    · simp [lateral_movement_score, hs]
    · intro ts
      simp [action_velocity, hs]
    · intro v hv
      rcases ha : t.action with _ | acts
      · simp only [failed_login_count, ha] at hv
        left
        exact List.eq_of_mem_replicate hv
      · rcases hst : t.status_code with _ | stats
        · simp only [failed_login_count, ha, hst] at hv
          left
          exact List.eq_of_mem_replicate hv
        · simp only [failed_login_count, ha, hst, hs] at hv
          rcases List.mem_map.mp hv with ⟨i, _, rfl⟩
          by_cases hfl : (containsAny ["login"] (acts.getD i "") &&
              (stats.getD i 0 = 401 || stats.getD i 0 = 403)) = true
          · right; rw [if_pos hfl]
          · left; rw [if_neg hfl]
    · intro v hv
      rcases ha : t.action with _ | acts
      · simp only [privilege_escalation_attempts, ha] at hv
        left
        exact List.eq_of_mem_replicate hv
      · simp only [privilege_escalation_attempts, ha, hs] at hv
        rcases List.mem_map.mp hv with ⟨i, _, rfl⟩
        by_cases hesc : containsAny escalationKeywords (acts.getD i "") = true
        · right; rw [if_pos hesc]
        · left; rw [if_neg hesc]
  · intro ht
    have hsd : session_duration t = List.replicate t.n 0 := by
      rcases hs : t.session_id with _ | sids <;> simp [session_duration, ht, hs]
    refine ⟨hsd, by simp [temporalExtract, ht], ?_⟩
    intro sids hsid
    have hl : (transformCount sids).length = t.n := by
      rw [transformCount_length]
      exact hwf.1 sids hsid
    unfold action_frequency
    rw [hsid]
    simp only [hsd, getD_replicate_zero, zero_div, if_pos, div_one]
    rw [← hl]
    exact map_getD_range _ _
  · intro hb
    simp [bytes_transferred_feature, hb]
  · intro hd ht hsc
    rcases hs : t.session_id with _ | sids
    · simp [port_scan_score, hs]
    · simp [port_scan_score, hs, hd, ht, hsc, List.eq_replicate_iff]
  · intro hr ha hsi
    rcases hs : t.session_id with _ | sids
    · simp [lateral_movement_score, hs]
    · simp [lateral_movement_score, hs, hr, ha, hsi, List.eq_replicate_iff]

/-- Witness for C7 (amended) at the 2-row table with every optional column
absent: the connection count degrades to ones, the bytes feature to zeros. -/
theorem extractors_soft_degradation_witness :
    connection_count ⟨2, none, none, none, none, none, none, none, none, none⟩ =
      List.replicate 2 1 ∧
    bytes_transferred_feature
        ⟨2, none, none, none, none, none, none, none, none, none⟩ =
      List.replicate 2 0 := by
  have h := extractors_soft_degradation
    ⟨2, none, none, none, none, none, none, none, none, none⟩
    (by refine ⟨?_, ?_, ?_, ?_, ?_, ?_, ?_, ?_, ?_⟩ <;> simp)
    ["failed_login_count"] ⟨["connection_count"], fun q => q⟩
    ⟨[], fun _ => 0, fun _ => 0, fun _ _ => 0, fun _ _ => 0⟩
  exact ⟨(h.2.2.2.2.2.2.1 rfl).2.2.2.1, h.2.2.2.2.2.2.2.2.1 rfl⟩

end AnomalyDetection
